import Mathlib

/-!
Shallow embedding of the platformer in `mariomod.py`: entity records
(Player, Enemy, Platform, Coin, HealthPowerup), the per-frame update
rules, the collision resolver `Game.handle_collisions`, the session
state machine (Playing / GameOver with restart), and the platform-count
prompt's numeric fallback logic.

Modelling conventions:
* pygame rects hold integer coordinates; a rect is `(x, y, w, h)` with
  `left = x`, `top = y`, `right = x + w`, `bottom = y + h`.
* The only non-integer quantities in the source are `velocity_y`
  (incremented by `GRAVITY = 0.8` each tick, set to `JUMP_POWER = -16`
  on jump) and the powerup bounce phase (incremented by `0.1`). Both are
  exact multiples of one tenth, so they are embedded as integers counted
  in tenths of a pixel; Python's float-to-int truncation when a float is
  stored into a rect field is `truncDiv10`.
* `random.randint`, `random.choice` and `random.random` are modelled by
  an explicit stream of naturals (`RNG`) threaded through the functions
  that draw from it.
* `math.sin` in the powerup bounce (`int(2*math.sin(bounce))`) is
  transcendental; the integer offset it produces each frame is supplied
  as an oracle argument `offs` to `Game.update`.
-/

namespace Mario

/-- Screen width in pixels (`WIDTH = 1100`). -/
def WIDTH : Int := 1100

/-- Screen height in pixels (`HEIGHT = 720`). -/
def HEIGHT : Int := 720

/-- Gravity per tick, in tenths of a pixel (`GRAVITY = 0.8`). -/
def GRAVITY : Int := 8

/-- Jump impulse, in tenths of a pixel (`JUMP_POWER = -16`). -/
def JUMP_POWER : Int := -160

/-- Horizontal player speed (`PLAYER_SPEED = 8`). -/
def PLAYER_SPEED : Int := 8

/-- Coin spawn interval in milliseconds (`COIN_SPAWN_RATE = 3000`). -/
def COIN_SPAWN_RATE : Int := 3000

/-- Cap on the number of enemies (`MAX_ENEMIES = 10`). -/
def MAX_ENEMIES : Nat := 10

/-- Cap on the number of platforms (`MAX_PLATFORMS = 15`). -/
def MAX_PLATFORMS : Int := 15

/-- Score interval that triggers enemy spawning
(`ENEMY_SPAWN_SCORE_INTERVAL = 500`). -/
def ENEMY_SPAWN_SCORE_INTERVAL : Int := 500

/-- Truncation toward zero of `a / 10`: the effect of Python storing the
float `a/10` into an integer rect field (`int()` truncates toward 0). -/
def truncDiv10 (a : Int) : Int := if a < 0 then -((-a).fdiv 10) else a.fdiv 10

/-- A pygame rect: integer position and size. -/
structure Rect where
  x : Int
  y : Int
  w : Int
  h : Int
  deriving Repr, DecidableEq

/-- Right edge of a rect (`rect.right = x + w`). -/
def Rect.right (r : Rect) : Int := r.x + r.w

/-- Bottom edge of a rect (`rect.bottom = y + h`). -/
def Rect.bottom (r : Rect) : Int := r.y + r.h

/-- pygame `colliderect`: the rects share interior area (touching edges
do not collide). -/
def collide (a b : Rect) : Bool :=
  a.x < b.x + b.w && a.y < b.y + b.h && a.x + a.w > b.x && a.y + a.h > b.y

/-- Stream of naturals standing for the pseudo-random source. -/
structure RNG where
  stream : Nat → Nat
  idx : Nat

/-- Draw one natural from the stream. -/
def RNG.draw (g : RNG) : Nat × RNG := (g.stream g.idx, ⟨g.stream, g.idx + 1⟩)

/-- Models `random.randint(lo, hi)`: one draw reduced into `[lo, hi]`
(for `lo ≤ hi`). -/
def randint (lo hi : Int) (g : RNG) : Int × RNG :=
  (lo + (g.draw.1 : Int) % (hi - lo + 1), g.draw.2)

/-- Models `random.choice([True, False])`: one draw reduced to a Bool. -/
def randChoice (g : RNG) : Bool × RNG :=
  (g.draw.1 % 2 == 0, g.draw.2)

/-- The `Player` sprite: rect (always 32×64), velocities, ground/jump
flags, facing, health and score. `velocity_y` is in tenths of a pixel;
animation bookkeeping (frames, images, timers) is omitted as it affects
no other state. -/
structure Player where
  rect : Rect
  velocity_x : Int
  velocity_y : Int
  on_ground : Bool
  facing_right : Bool
  health : Int
  score : Int
  jumping : Bool
  deriving Repr, DecidableEq

/-- `Player.__init__`: 32×64 rect centered at `(WIDTH//4, HEIGHT//2)`,
zero velocity, health 100, score 0. -/
def Player.init : Player :=
  { rect := ⟨WIDTH.fdiv 4 - 16, HEIGHT.fdiv 2 - 32, 32, 64⟩
    velocity_x := 0, velocity_y := 0, on_ground := false,
    facing_right := true, health := 100, score := 0, jumping := false }

/-- `Player.update`: apply gravity, move by velocity (the vertical move
truncates the float position into the integer rect), then clamp the
left, right and bottom screen edges; the bottom clamp also lands the
player. The source has no clamp for the top edge. -/
def Player.update (p : Player) : Player :=
  let vy := p.velocity_y + GRAVITY
  let x1 := p.rect.x + p.velocity_x
  let y1 := truncDiv10 (10 * p.rect.y + vy)
  let r1 : Rect := { p.rect with x := x1, y := y1 }
  let r2 := if r1.x < 0 then { r1 with x := 0 } else r1
  let r3 := if WIDTH < r2.x + r2.w then { r2 with x := WIDTH - r2.w } else r2
  if HEIGHT < r3.y + r3.h then
    { p with rect := { r3 with y := HEIGHT - r3.h },
             velocity_y := 0, on_ground := true, jumping := false }
  else
    { p with rect := r3, velocity_y := vy }

/-- `Player.jump`: only when on the ground and not already jumping, set
the jump impulse, clear `on_ground`, set `jumping`. -/
def Player.jump (p : Player) : Player :=
  if p.on_ground && !p.jumping then
    { p with velocity_y := JUMP_POWER, on_ground := false, jumping := true }
  else p

/-- The `Enemy` sprite: 32×32 rect, direction ±1, speed 2. -/
structure Enemy where
  rect : Rect
  direction : Int
  speed : Int
  deriving Repr, DecidableEq

/-- `Enemy.update`: move horizontally, reversing at the screen edges. -/
def Enemy.update (e : Enemy) : Enemy :=
  let r := { e.rect with x := e.rect.x + e.speed * e.direction }
  if r.x + r.w > WIDTH || r.x < 0 then { e with rect := r, direction := -e.direction }
  else { e with rect := r }

/-- The `Platform` sprite. The source sets `start_x`, `direction`,
`speed` only when `moving`; here they are always present and only read
when `moving` holds. -/
structure Platform where
  rect : Rect
  moving : Bool
  start_x : Int
  direction : Int
  speed : Int
  deriving Repr, DecidableEq

/-- `Platform.update`: a moving platform oscillates, reversing when its
displacement from `start_x` exceeds 100. -/
def Platform.update (pl : Platform) : Platform :=
  if pl.moving then
    let r := { pl.rect with x := pl.rect.x + pl.speed * pl.direction }
    if (r.x - pl.start_x).natAbs > 100 then { pl with rect := r, direction := -pl.direction }
    else { pl with rect := r }
  else pl

/-- The `Coin` sprite: 16×16 rect and value (always 10 at creation). -/
structure Coin where
  rect : Rect
  value : Int
  deriving Repr, DecidableEq

/-- The `HealthPowerup` sprite: 20×20 rect and a bounce phase counted in
tenths (`bounce += 0.1` per frame). -/
structure HealthPowerup where
  rect : Rect
  bounce : Int
  deriving Repr, DecidableEq

/-- `HealthPowerup.update`: advance the bounce phase and shift `y` by
the oracle offset `off`, which stands for `int(2 * math.sin(bounce))`. -/
def HealthPowerup.update (off : Int) (pw : HealthPowerup) : HealthPowerup :=
  { pw with bounce := pw.bounce + 1, rect := { pw.rect with y := pw.rect.y + off } }

/-- The `Game` session state: player, entity groups (as lists in group
insertion order), the GameOver flag, the configured platform count and
the coin-spawn timestamp. -/
structure Game where
  player : Player
  platforms : List Platform
  coins : List Coin
  enemies : List Enemy
  powerups : List HealthPowerup
  game_over : Bool
  running : Bool
  num_platforms : Int
  last_coin_spawn : Int

/-- Platform-generation loop of `Game.setup_level`, over the index list
`range(num_platforms)`: random width in `[80,150]`, random x, stacked y,
platforms after the first randomly moving. -/
def genPlatforms : List Nat → Int → RNG → List Platform × RNG
  | [], _, g => ([], g)
  | i :: is, spacing, g =>
    let wr := randint 80 150 g
    let xr := randint 0 (WIDTH - wr.1) wr.2
    let y := (HEIGHT - 40) - (i : Int) * spacing
    let mv := if i > 0 then randChoice xr.2 else (false, xr.2)
    let pl : Platform := { rect := ⟨xr.1, y, wr.1, 20⟩, moving := mv.1,
                           start_x := xr.1, direction := 1, speed := 2 }
    let rest := genPlatforms is spacing mv.2
    (pl :: rest.1, rest.2)

/-- Initial-enemy loop of `Game.setup_level`: `n` enemies at random x,
`y = HEIGHT - 80`. -/
def genEnemies : Nat → RNG → List Enemy × RNG
  | 0, g => ([], g)
  | n + 1, g =>
    let xr := randint 0 WIDTH g
    let e : Enemy := { rect := ⟨xr.1, HEIGHT - 80, 32, 32⟩, direction := 1, speed := 2 }
    let rest := genEnemies n xr.2
    (e :: rest.1, rest.2)

/-- `Game.__init__` followed by `setup_level`: clamp the platform count
to at most `MAX_PLATFORMS`, clear GameOver, build the player, platforms
and three initial enemies. (`platform_spacing` is Python's floor
division `(HEIGHT - 200) // num_platforms`.) -/
def Game.init (num_platforms : Int) (g : RNG) : Game × RNG :=
  let np := min num_platforms MAX_PLATFORMS
  let spacing := (HEIGHT - 200).fdiv np
  let pr := genPlatforms (List.range np.toNat) spacing g
  let er := genEnemies 3 pr.2
  ({ player := Player.init, platforms := pr.1, coins := [], enemies := er.1,
     powerups := [], game_over := false, running := true,
     num_platforms := np, last_coin_spawn := 0 }, er.2)

/-- `Game.spawn_coin`: when the spawn interval has elapsed, add a coin
of value 10 centered at a random position, and with probability 1/5
(`random.random() < 0.2`, modelled by a draw being `0 mod 5`) also a
powerup 40 pixels to the right. -/
def Game.spawn_coin (s : Game) (now : Int) (g : RNG) : Game × RNG :=
  if now - s.last_coin_spawn > COIN_SPAWN_RATE then
    let xr := randint 0 WIDTH g
    let yr := randint (HEIGHT.fdiv 2) (HEIGHT - 100) xr.2
    let coin : Coin := { rect := ⟨xr.1 - 8, yr.1 - 8, 16, 16⟩, value := 10 }
    let s1 := { s with last_coin_spawn := now, coins := s.coins ++ [coin] }
    let dr := yr.2.draw
    if dr.1 % 5 = 0 then
      let pw : HealthPowerup := { rect := ⟨xr.1 + 40 - 10, yr.1 - 10, 20, 20⟩, bounce := 0 }
      ({ s1 with powerups := s1.powerups ++ [pw] }, dr.2)
    else (s1, dr.2)
  else (s, g)

/-- One step of the `lowest` selection loop in the platform branch of
`handle_collisions`: replace the current pick only when the candidate's
bottom edge is strictly greater. -/
def lowestStep (lo hit : Platform) : Platform :=
  if lo.rect.bottom < hit.rect.bottom then hit else lo

/-- Platform branch of `Game.handle_collisions`: among the overlapping
platforms pick the one with the greatest bottom edge (first on ties);
if the player is falling, snap the player's bottom to its top, zero
vertical velocity, set `on_ground`, clear `jumping`. -/
def platformPass (p : Player) (plats : List Platform) : Player :=
  match plats.filter (fun pl => collide p.rect pl.rect) with
  | [] => p
  | first :: rest =>
    let lowest := rest.foldl lowestStep first
    if 0 < p.velocity_y then
      { p with rect := { p.rect with y := lowest.rect.y - p.rect.h },
               velocity_y := 0, on_ground := true, jumping := false }
    else p

/-- Body of the coin-collection loop in `Game.handle_collisions`: add
the coin's value to the score, then spawn one enemy when the integer
quotient of the score by `ENEMY_SPAWN_SCORE_INTERVAL` increased and the
enemy count is below `MAX_ENEMIES`. -/
def collectCoin (acc : Player × List Enemy × RNG) (c : Coin) : Player × List Enemy × RNG :=
  let p := { acc.1 with score := acc.1.score + c.value }
  if p.score.fdiv ENEMY_SPAWN_SCORE_INTERVAL >
     (p.score - c.value).fdiv ENEMY_SPAWN_SCORE_INTERVAL then
    if acc.2.1.length < MAX_ENEMIES then
      let xr := randint 0 WIDTH acc.2.2
      (p, acc.2.1 ++ [{ rect := ⟨xr.1, HEIGHT - 80, 32, 32⟩, direction := 1, speed := 2 }], xr.2)
    else (p, acc.2.1, acc.2.2)
  else (p, acc.2.1, acc.2.2)

/-- Coin branch of `Game.handle_collisions`: `spritecollide(..., True)`
removes every overlapping coin from the group, then the loop awards each
one's value and may spawn enemies. Returns the player, the remaining
coins, the enemies and the random source. -/
def coinPass (p : Player) (coins : List Coin) (es : List Enemy) (g : RNG) :
    Player × List Coin × List Enemy × RNG :=
  let hits := coins.filter (fun c => collide p.rect c.rect)
  let res := hits.foldl collectCoin (p, es, g)
  (res.1, coins.filter (fun c => !(collide p.rect c.rect)), res.2.1, res.2.2)

/-- Body of the powerup-collection loop: heal by 30, capped at 100. -/
def healStep (pl : Player) (_ : HealthPowerup) : Player :=
  { pl with health := min 100 (pl.health + 30) }

/-- Powerup branch of `Game.handle_collisions`: every overlapping
powerup is removed and each heals the player by 30, capped at 100. -/
def powerupPass (p : Player) (pups : List HealthPowerup) : Player × List HealthPowerup :=
  let hits := pups.filter (fun pw => collide p.rect pw.rect)
  (hits.foldl healStep p, pups.filter (fun pw => !(collide p.rect pw.rect)))

/-- Enemy branch of `Game.handle_collisions`: if any enemy overlaps the
player, subtract 10 health once (regardless of how many overlap) and
raise GameOver when the result is ≤ 0. -/
def enemyPass (p : Player) (es : List Enemy) (go : Bool) : Player × Bool :=
  match es.filter (fun e => collide p.rect e.rect) with
  | [] => (p, go)
  | _ :: _ =>
    let p2 := { p with health := p.health - 10 }
    (p2, if p2.health ≤ 0 then true else go)

/-- `Game.handle_collisions`: platform pass, coin pass (which may spawn
enemies), powerup pass, then enemy pass over the updated enemy group. -/
def Game.handle_collisions (s : Game) (g : RNG) : Game × RNG :=
  let p1 := platformPass s.player s.platforms
  let cRes := coinPass p1 s.coins s.enemies g
  let pRes := powerupPass cRes.1 s.powerups
  let eRes := enemyPass pRes.1 cRes.2.2.1 s.game_over
  ({ s with player := eRes.1, coins := cRes.2.1, enemies := cRes.2.2.1,
            powerups := pRes.2, game_over := eRes.2 }, cRes.2.2.2)

/-- `Game.update`: spawn coins, advance every sprite (coins have no
update rule), then resolve collisions. `offs i` is the sine-bounce
oracle for the `i`-th powerup. -/
def Game.update (s : Game) (now : Int) (offs : Nat → Int) (g : RNG) : Game × RNG :=
  let sr := Game.spawn_coin s now g
  let s2 := { sr.1 with
              player := sr.1.player.update,
              platforms := sr.1.platforms.map Platform.update,
              enemies := sr.1.enemies.map Enemy.update,
              powerups := sr.1.powerups.enum.map
                (fun ip => HealthPowerup.update (offs ip.1) ip.2) }
  Game.handle_collisions s2 sr.2

/-- Discrete input events consumed by `Game.handle_events`: quit, the
space key (jump), the R key (restart when GameOver), any other key. -/
inductive Event where
  | quit
  | keySpace
  | keyR
  | keyOther
  deriving Repr, DecidableEq

/-- One iteration of the event loop in `Game.handle_events`: quit stops
the loop flag, space always calls `Player.jump`, R reconstructs the
session via `Game.init` only while GameOver. -/
def processEvent (sg : Game × RNG) (e : Event) : Game × RNG :=
  match e with
  | .quit => ({ sg.1 with running := false }, sg.2)
  | .keySpace => ({ sg.1 with player := sg.1.player.jump }, sg.2)
  | .keyR => if sg.1.game_over then Game.init sg.1.num_platforms sg.2 else sg
  | .keyOther => sg

/-- `Game.handle_events`: process the event queue, then the held-key
section: `velocity_x` is reset to 0 every frame and set from the held
left/right keys (right wins when both are held). -/
def Game.handle_events (s : Game) (events : List Event) (leftHeld rightHeld : Bool)
    (g : RNG) : Game × RNG :=
  let sg := events.foldl processEvent (s, g)
  let p0 := { sg.1.player with velocity_x := 0 }
  let p1 := if leftHeld then { p0 with velocity_x := -PLAYER_SPEED, facing_right := false }
            else p0
  let p2 := if rightHeld then { p1 with velocity_x := PLAYER_SPEED, facing_right := true }
            else p1
  ({ sg.1 with player := p2 }, sg.2)

/-- One iteration of `Game.run`: handle events, then run the simulation
update only when the session is not in GameOver (otherwise the frame is
render-only). -/
def Game.frame (s : Game) (events : List Event) (leftHeld rightHeld : Bool)
    (now : Int) (offs : Nat → Int) (g : RNG) : Game × RNG :=
  let sg := Game.handle_events s events leftHeld rightHeld g
  if sg.1.game_over then sg else Game.update sg.1 now offs sg.2

/-- Session states reachable from `Game.__init__` by iterating frames of
`Game.run` with arbitrary inputs, timing and randomness. -/
inductive Reachable : Game → Prop where
  | init : ∀ (n : Int) (g : RNG), Reachable (Game.init n g).1
  | step : ∀ (s : Game) (events : List Event) (lh rh : Bool) (now : Int)
      (offs : Nat → Int) (g : RNG), Reachable s →
      Reachable (Game.frame s events lh rh now offs g).1

/-- Health part of the session invariant: health is a multiple of 10
within `[0, 100]`, and at least 10 while the session is still
Playing. -/
def HealthOK (s : Game) : Prop :=
  10 ∣ s.player.health ∧ 0 ≤ s.player.health ∧ s.player.health ≤ 100 ∧
    (s.game_over = false → 10 ≤ s.player.health)

/-- Session invariant: health bounds, a non-negative score, and every
coin in play has value 10. -/
def Inv (s : Game) : Prop :=
  HealthOK s ∧ 0 ≤ s.player.score ∧ ∀ c ∈ s.coins, c.value = 10

/-- An all-zero random stream. -/
def rng0 : RNG := ⟨fun _ => 0, 0⟩

/-- A grounded player at `(100, 100)` with full health. -/
def pC1 : Player :=
  { rect := ⟨100, 100, 32, 64⟩, velocity_x := 0, velocity_y := 0, on_ground := true,
    facing_right := true, health := 100, score := 0, jumping := false }

/-- An enemy overlapping `pC1`. -/
def eA : Enemy := { rect := ⟨100, 120, 32, 32⟩, direction := 1, speed := 2 }

/-- A second enemy overlapping `pC1`. -/
def eB : Enemy := { rect := ⟨110, 130, 32, 32⟩, direction := 1, speed := 2 }

/-- A player near the top of the screen at the start of a jump
(`velocity_y = -16`, stored in tenths). -/
def pC3 : Player :=
  { rect := ⟨259, 10, 32, 64⟩, velocity_x := 0, velocity_y := -160, on_ground := false,
    facing_right := true, health := 100, score := 0, jumping := true }

/-- A falling player (`velocity_y = 5` in tenths, i.e. `0.5`). -/
def pC4 : Player :=
  { rect := ⟨100, 100, 32, 64⟩, velocity_x := 0, velocity_y := 5, on_ground := false,
    facing_right := true, health := 100, score := 0, jumping := true }

/-- A platform overlapping `pC4`. -/
def platC4 : Platform :=
  { rect := ⟨90, 150, 100, 20⟩, moving := false, start_x := 90, direction := 1, speed := 2 }

/-- A player whose score is 490, ten points below a multiple of 500. -/
def p490 : Player := { pC1 with score := 490 }

/-- A coin whose rect overlaps `pC1` (and `p490`). -/
def cHit : Coin := { rect := ⟨100, 100, 16, 16⟩, value := 10 }

/-- A coin away from the player. -/
def cMiss : Coin := { rect := ⟨700, 100, 16, 16⟩, value := 10 }

/-- A session in the GameOver state whose player still has horizontal
velocity 8. -/
def goState : Game :=
  { player := { pC1 with velocity_x := 8 }, platforms := [], coins := [], enemies := [],
    powerups := [], game_over := true, running := true, num_platforms := 5,
    last_coin_spawn := 0 }

/-! Helper lemmas: effect of each operation on the fields the claims
track. -/

theorem Player.update_health (p : Player) : (Player.update p).health = p.health := by
  simp only [Player.update]
  split <;> split <;> split <;> rfl

theorem Player.update_score (p : Player) : (Player.update p).score = p.score := by
  simp only [Player.update]
  split <;> split <;> split <;> rfl

theorem Player.jump_rect (p : Player) : (Player.jump p).rect = p.rect := by
  simp only [Player.jump]
  split <;> rfl

theorem Player.jump_health (p : Player) : (Player.jump p).health = p.health := by
  simp only [Player.jump]
  split <;> rfl

theorem Player.jump_score (p : Player) : (Player.jump p).score = p.score := by
  simp only [Player.jump]
  split <;> rfl

theorem platformPass_health (p : Player) (plats : List Platform) :
    (platformPass p plats).health = p.health := by
  simp only [platformPass]
  split
  · rfl
  · split <;> rfl

theorem platformPass_score (p : Player) (plats : List Platform) :
    (platformPass p plats).score = p.score := by
  simp only [platformPass]
  split
  · rfl
  · split <;> rfl

theorem collectCoin_player (acc : Player × List Enemy × RNG) (c : Coin) :
    (collectCoin acc c).1 = { acc.1 with score := acc.1.score + c.value } := by
  simp only [collectCoin]
  split
  · split <;> rfl
  · rfl

theorem foldl_collectCoin_score :
    ∀ (hits : List Coin) (acc : Player × List Enemy × RNG),
      ((hits.foldl collectCoin acc).1).score = acc.1.score + (hits.map Coin.value).sum := by
  intro hits
  induction hits with
  | nil => intro acc; simp
  | cons c cs ih =>
    intro acc
    simp only [List.foldl_cons, List.map_cons, List.sum_cons]
    rw [ih, collectCoin_player]
    simp
    omega

theorem foldl_collectCoin_health :
    ∀ (hits : List Coin) (acc : Player × List Enemy × RNG),
      ((hits.foldl collectCoin acc).1).health = acc.1.health := by
  intro hits
  induction hits with
  | nil => intro acc; rfl
  | cons c cs ih =>
    intro acc
    simp only [List.foldl_cons]
    rw [ih, collectCoin_player]

theorem sum_values_all_ten :
    ∀ (l : List Coin), (∀ c ∈ l, c.value = 10) →
      (l.map Coin.value).sum = 10 * (l.length : Int) := by
  intro l
  induction l with
  | nil => intro _; simp
  | cons c cs ih =>
    intro h
    simp only [List.map_cons, List.sum_cons, List.length_cons]
    rw [h c (List.mem_cons_self c cs), ih (fun x hx => h x (List.mem_cons_of_mem c hx))]
    push_cast
    ring

theorem foldl_healStep_score :
    ∀ (hits : List HealthPowerup) (p : Player),
      (hits.foldl healStep p).score = p.score := by
  intro hits
  induction hits with
  | nil => intro p; rfl
  | cons pw pws ih =>
    intro p
    simp only [List.foldl_cons]
    rw [ih]
    rfl

theorem foldl_healStep_health :
    ∀ (hits : List HealthPowerup) (p : Player),
      10 ∣ p.health → 10 ≤ p.health → p.health ≤ 100 →
      10 ∣ (hits.foldl healStep p).health ∧ 10 ≤ (hits.foldl healStep p).health ∧
        (hits.foldl healStep p).health ≤ 100 := by
  intro hits
  induction hits with
  | nil => intro p h1 h2 h3; exact ⟨h1, h2, h3⟩
  | cons pw pws ih =>
    intro p h1 h2 h3
    simp only [List.foldl_cons]
    have hh : (healStep p pw).health = min 100 (p.health + 30) := rfl
    refine ih (healStep p pw) ?_ ?_ ?_ <;> rw [hh] <;> omega

theorem enemyPass_score (p : Player) (es : List Enemy) (go : Bool) :
    (enemyPass p es go).1.score = p.score := by
  simp only [enemyPass]
  split <;> rfl

theorem spawn_coin_player (s : Game) (now : Int) (g : RNG) :
    (Game.spawn_coin s now g).1.player = s.player := by
  simp only [Game.spawn_coin]
  split
  · split <;> rfl
  · rfl

theorem spawn_coin_go (s : Game) (now : Int) (g : RNG) :
    (Game.spawn_coin s now g).1.game_over = s.game_over := by
  simp only [Game.spawn_coin]
  split
  · split <;> rfl
  · rfl

theorem spawn_coin_coins (s : Game) (now : Int) (g : RNG)
    (h : ∀ c ∈ s.coins, c.value = 10) :
    ∀ c ∈ (Game.spawn_coin s now g).1.coins, c.value = 10 := by
  simp only [Game.spawn_coin]
  split
  · split <;>
    · intro c hc
      rcases List.mem_append.1 hc with h1 | h1
      · exact h c h1
      · rw [List.mem_singleton.1 h1]
  · exact h

theorem coinPass_fst (p : Player) (coins : List Coin) (es : List Enemy) (g : RNG) :
    (coinPass p coins es g).1 =
      ((coins.filter (fun c => collide p.rect c.rect)).foldl collectCoin (p, es, g)).1 := rfl

theorem coinPass_coins (p : Player) (coins : List Coin) (es : List Enemy) (g : RNG) :
    (coinPass p coins es g).2.1 = coins.filter (fun c => !(collide p.rect c.rect)) := rfl

theorem powerupPass_fst (p : Player) (pups : List HealthPowerup) :
    (powerupPass p pups).1 =
      (pups.filter (fun pw => collide p.rect pw.rect)).foldl healStep p := rfl

theorem genPlatforms_length :
    ∀ (l : List Nat) (sp : Int) (g : RNG), (genPlatforms l sp g).1.length = l.length := by
  intro l
  induction l with
  | nil => intro sp g; rfl
  | cons i is ih =>
    intro sp g
    simp only [genPlatforms, List.length_cons]
    rw [ih]

/-! The session invariant is established at `Game.init` and preserved
by every frame. -/

theorem init_inv (n : Int) (g : RNG) : Inv (Game.init n g).1 := by
  refine ⟨⟨?_, ?_, ?_, fun _ => ?_⟩, ?_, ?_⟩
  · show (10 : Int) ∣ 100
    norm_num
  · show (0 : Int) ≤ 100
    norm_num
  · show (100 : Int) ≤ 100
    norm_num
  · show (10 : Int) ≤ 100
    norm_num
  · show (0 : Int) ≤ 0
    norm_num
  · show ∀ c ∈ ([] : List Coin), c.value = 10
    simp

theorem enemyPass_inv (p : Player) (es : List Enemy)
    (hdvd : 10 ∣ p.health) (h10 : 10 ≤ p.health) (h100 : p.health ≤ 100) :
    10 ∣ (enemyPass p es false).1.health ∧ 0 ≤ (enemyPass p es false).1.health ∧
      (enemyPass p es false).1.health ≤ 100 ∧
      ((enemyPass p es false).2 = false → 10 ≤ (enemyPass p es false).1.health) := by
  simp only [enemyPass]
  split
  · exact ⟨hdvd, by show 0 ≤ p.health; omega, h100, fun _ => h10⟩
  · refine ⟨?_, ?_, ?_, ?_⟩
    · show 10 ∣ p.health - 10
      omega
    · show 0 ≤ p.health - 10
      omega
    · show p.health - 10 ≤ 100
      omega
    · intro hfalse
      show 10 ≤ p.health - 10
      by_cases hc : p.health - 10 ≤ 0
      · rw [if_pos hc] at hfalse
        exact absurd hfalse (by simp)
      · omega

theorem handle_collisions_inv (s : Game) (g : RNG)
    (hdvd : 10 ∣ s.player.health) (h10 : 10 ≤ s.player.health)
    (h100 : s.player.health ≤ 100) (hsc : 0 ≤ s.player.score)
    (hcv : ∀ c ∈ s.coins, c.value = 10) (hgo : s.game_over = false) :
    Inv (Game.handle_collisions s g).1 := by
  dsimp only [Game.handle_collisions, Inv, HealthOK]
  rw [hgo]
  set P := platformPass s.player s.platforms with hP
  set C := coinPass P s.coins s.enemies g with hC
  set W := powerupPass C.1 s.powerups with hW
  set E := enemyPass W.1 C.2.2.1 false with hE
  have hPh : P.health = s.player.health := platformPass_health s.player s.platforms
  have hPs : P.score = s.player.score := platformPass_score s.player s.platforms
  have hCh : C.1.health = s.player.health := by
    rw [hC, coinPass_fst, foldl_collectCoin_health]
    exact hPh
  have hCs : 0 ≤ C.1.score := by
    rw [hC, coinPass_fst, foldl_collectCoin_score,
      sum_values_all_ten _ (fun c hc => hcv c (List.mem_of_mem_filter hc))]
    have hx : ((P, s.enemies, g) : Player × List Enemy × RNG).1.score = s.player.score := hPs
    omega
  have hWh : 10 ∣ W.1.health ∧ 10 ≤ W.1.health ∧ W.1.health ≤ 100 := by
    rw [hW, powerupPass_fst]
    exact foldl_healStep_health _ C.1 (by rw [hCh]; exact hdvd)
      (by rw [hCh]; exact h10) (by rw [hCh]; exact h100)
  have hWs : W.1.score = C.1.score := by
    rw [hW, powerupPass_fst, foldl_healStep_score]
  have hEinv := enemyPass_inv W.1 C.2.2.1 hWh.1 hWh.2.1 hWh.2.2
  refine ⟨⟨?_, ?_, ?_, ?_⟩, ?_, ?_⟩
  · exact hEinv.1
  · exact hEinv.2.1
  · exact hEinv.2.2.1
  · exact hEinv.2.2.2
  · rw [hE, enemyPass_score, hWs]
    exact hCs
  · rw [hC, coinPass_coins]
    intro c hc
    exact hcv c (List.mem_of_mem_filter hc)

theorem update_inv (s : Game) (now : Int) (offs : Nat → Int) (g : RNG)
    (h : Inv s) (hgo : s.game_over = false) :
    Inv (Game.update s now offs g).1 := by
  dsimp only [Game.update]
  apply handle_collisions_inv
  · show 10 ∣ (Game.spawn_coin s now g).1.player.update.health
    rw [Player.update_health, spawn_coin_player]
    exact h.1.1
  · show 10 ≤ (Game.spawn_coin s now g).1.player.update.health
    rw [Player.update_health, spawn_coin_player]
    exact h.1.2.2.2 hgo
  · show (Game.spawn_coin s now g).1.player.update.health ≤ 100
    rw [Player.update_health, spawn_coin_player]
    exact h.1.2.2.1
  · show 0 ≤ (Game.spawn_coin s now g).1.player.update.score
    rw [Player.update_score, spawn_coin_player]
    exact h.2.1
  · show ∀ c ∈ (Game.spawn_coin s now g).1.coins, c.value = 10
    exact spawn_coin_coins s now g h.2.2
  · show (Game.spawn_coin s now g).1.game_over = false
    rw [spawn_coin_go]
    exact hgo

theorem processEvent_inv (sg : Game × RNG) (e : Event) (h : Inv sg.1) :
    Inv (processEvent sg e).1 := by
  cases e with
  | quit => exact h
  | keySpace =>
    refine ⟨⟨?_, ?_, ?_, ?_⟩, ?_, ?_⟩
    · show 10 ∣ sg.1.player.jump.health
      rw [Player.jump_health]
      exact h.1.1
    · show 0 ≤ sg.1.player.jump.health
      rw [Player.jump_health]
      exact h.1.2.1
    · show sg.1.player.jump.health ≤ 100
      rw [Player.jump_health]
      exact h.1.2.2.1
    · intro hgo
      show 10 ≤ sg.1.player.jump.health
      rw [Player.jump_health]
      exact h.1.2.2.2 hgo
    · show 0 ≤ sg.1.player.jump.score
      rw [Player.jump_score]
      exact h.2.1
    · exact h.2.2
  | keyR =>
    dsimp only [processEvent]
    split
    · exact init_inv _ _
    · exact h
  | keyOther => exact h

theorem foldl_processEvent_inv :
    ∀ (events : List Event) (sg : Game × RNG), Inv sg.1 →
      Inv (events.foldl processEvent sg).1 := by
  intro events
  induction events with
  | nil => intro sg h; exact h
  | cons e es ih => intro sg h; exact ih _ (processEvent_inv sg e h)

theorem handle_events_inv (s : Game) (events : List Event) (lh rh : Bool) (g : RNG)
    (h : Inv s) : Inv (Game.handle_events s events lh rh g).1 := by
  dsimp only [Game.handle_events]
  have h2 := foldl_processEvent_inv events (s, g) h
  cases lh <;> cases rh <;>
    exact ⟨⟨h2.1.1, h2.1.2.1, h2.1.2.2.1, h2.1.2.2.2⟩, h2.2.1, h2.2.2⟩

theorem frame_inv (s : Game) (events : List Event) (lh rh : Bool) (now : Int)
    (offs : Nat → Int) (g : RNG) (h : Inv s) :
    Inv (Game.frame s events lh rh now offs g).1 := by
  dsimp only [Game.frame]
  split
  · exact handle_events_inv s events lh rh g h
  · rename_i hgo
    rw [Bool.not_eq_true] at hgo
    exact update_inv _ now offs _ (handle_events_inv s events lh rh g h) hgo

theorem reachable_inv : ∀ s : Game, Reachable s → Inv s := by
  intro s h
  induction h with
  | init n g => exact init_inv n g
  | step s events lh rh now offs g _ ih => exact frame_inv s events lh rh now offs g ih

/-! The `lowest`-selection loop of the platform pass computes the first
element of greatest bottom edge. -/

theorem lowest_spec :
    ∀ (l : List Platform) (a : Platform),
      (l.foldl lowestStep a = a ∧ ∀ x ∈ l, x.rect.bottom ≤ a.rect.bottom) ∨
      (∃ l1 l2, l = l1 ++ (l.foldl lowestStep a) :: l2 ∧
        a.rect.bottom < (l.foldl lowestStep a).rect.bottom ∧
        (∀ x ∈ l1, x.rect.bottom < (l.foldl lowestStep a).rect.bottom) ∧
        (∀ x ∈ l2, x.rect.bottom ≤ (l.foldl lowestStep a).rect.bottom)) := by
  intro l
  induction l with
  | nil =>
    intro a
    left
    exact ⟨rfl, by simp⟩
  | cons h t ih =>
    intro a
    simp only [List.foldl_cons]
    by_cases hc : a.rect.bottom < h.rect.bottom
    · rw [show lowestStep a h = h from if_pos hc]
      rcases ih h with ⟨heq, hall⟩ | ⟨l1, l2, hdec, hlt, hl1, hl2⟩
      · right
        refine ⟨[], t, ?_, ?_, ?_, ?_⟩
        · rw [heq]
          simp
        · rw [heq]
          exact hc
        · simp
        · rw [heq]
          exact hall
      · right
        refine ⟨h :: l1, l2, ?_, ?_, ?_, ?_⟩
        · rw [List.cons_append]
          exact congrArg (h :: ·) hdec
        · exact hc.trans hlt
        · intro x hx
          rcases List.mem_cons.1 hx with hx | hx
          · rw [hx]
            exact hlt
          · exact hl1 x hx
        · exact hl2
    · rw [show lowestStep a h = a from if_neg hc]
      rcases ih a with ⟨heq, hall⟩ | ⟨l1, l2, hdec, hlt, hl1, hl2⟩
      · left
        refine ⟨heq, ?_⟩
        intro x hx
        rcases List.mem_cons.1 hx with hx | hx
        · rw [hx]
          omega
        · exact hall x hx
      · right
        refine ⟨h :: l1, l2, ?_, hlt, ?_, hl2⟩
        · rw [List.cons_append]
          exact congrArg (h :: ·) hdec
        · intro x hx
          rcases List.mem_cons.1 hx with hx | hx
          · rw [hx]
            omega
          · exact hl1 x hx

/-! During GameOver, event handling leaves positions, health, score and
the entity groups untouched (only player velocity, facing and jump
flags, and the running flag, can change). -/

theorem processEvent_frozen (sg : Game × RNG) (e : Event)
    (hgo : sg.1.game_over = true) (hne : e ≠ Event.keyR) :
    (processEvent sg e).1.game_over = true ∧
    (processEvent sg e).1.player.rect = sg.1.player.rect ∧
    (processEvent sg e).1.player.health = sg.1.player.health ∧
    (processEvent sg e).1.player.score = sg.1.player.score ∧
    (processEvent sg e).1.platforms = sg.1.platforms ∧
    (processEvent sg e).1.coins = sg.1.coins ∧
    (processEvent sg e).1.enemies = sg.1.enemies ∧
    (processEvent sg e).1.powerups = sg.1.powerups := by
  cases e with
  | quit => exact ⟨hgo, rfl, rfl, rfl, rfl, rfl, rfl, rfl⟩
  | keySpace =>
    exact ⟨hgo, Player.jump_rect _, Player.jump_health _, Player.jump_score _,
      rfl, rfl, rfl, rfl⟩
  | keyR => exact absurd rfl hne
  | keyOther => exact ⟨hgo, rfl, rfl, rfl, rfl, rfl, rfl, rfl⟩

theorem foldl_processEvent_frozen :
    ∀ (events : List Event) (sg : Game × RNG), sg.1.game_over = true →
      Event.keyR ∉ events →
      (events.foldl processEvent sg).1.game_over = true ∧
      (events.foldl processEvent sg).1.player.rect = sg.1.player.rect ∧
      (events.foldl processEvent sg).1.player.health = sg.1.player.health ∧
      (events.foldl processEvent sg).1.player.score = sg.1.player.score ∧
      (events.foldl processEvent sg).1.platforms = sg.1.platforms ∧
      (events.foldl processEvent sg).1.coins = sg.1.coins ∧
      (events.foldl processEvent sg).1.enemies = sg.1.enemies ∧
      (events.foldl processEvent sg).1.powerups = sg.1.powerups := by
  intro events
  induction events with
  | nil =>
    intro sg hgo _
    exact ⟨hgo, rfl, rfl, rfl, rfl, rfl, rfl, rfl⟩
  | cons e es ih =>
    intro sg hgo hr
    have hne : e ≠ Event.keyR := by
      intro h
      exact hr (by rw [← h]; exact List.mem_cons_self e es)
    have h1 := processEvent_frozen sg e hgo hne
    have h2 := ih (processEvent sg e) h1.1 (fun h => hr (List.mem_cons_of_mem e h))
    exact ⟨h2.1, h2.2.1.trans h1.2.1, h2.2.2.1.trans h1.2.2.1,
      h2.2.2.2.1.trans h1.2.2.2.1, h2.2.2.2.2.1.trans h1.2.2.2.2.1,
      h2.2.2.2.2.2.1.trans h1.2.2.2.2.2.1,
      h2.2.2.2.2.2.2.1.trans h1.2.2.2.2.2.2.1,
      h2.2.2.2.2.2.2.2.trans h1.2.2.2.2.2.2.2⟩

theorem handle_events_frozen (s : Game) (events : List Event) (lh rh : Bool) (g : RNG)
    (hgo : s.game_over = true) (hr : Event.keyR ∉ events) :
    (Game.handle_events s events lh rh g).1.game_over = true ∧
    (Game.handle_events s events lh rh g).1.player.rect = s.player.rect ∧
    (Game.handle_events s events lh rh g).1.player.health = s.player.health ∧
    (Game.handle_events s events lh rh g).1.player.score = s.player.score ∧
    (Game.handle_events s events lh rh g).1.platforms = s.platforms ∧
    (Game.handle_events s events lh rh g).1.coins = s.coins ∧
    (Game.handle_events s events lh rh g).1.enemies = s.enemies ∧
    (Game.handle_events s events lh rh g).1.powerups = s.powerups := by
  dsimp only [Game.handle_events]
  have h2 := foldl_processEvent_frozen events (s, g) hgo hr
  cases lh <;> cases rh <;>
    exact ⟨h2.1, h2.2.1, h2.2.2.1, h2.2.2.2.1, h2.2.2.2.2.1,
      h2.2.2.2.2.2.1, h2.2.2.2.2.2.2.1, h2.2.2.2.2.2.2.2⟩

/-! Claim C1. -/

/-- C1, counterexample: two enemies overlap the player simultaneously,
yet the enemy pass of `handle_collisions` reduces health by 10, not by
`2 * 10` as the claim states. -/
theorem C1_counterexample :
    collide pC1.rect eA.rect = true ∧ collide pC1.rect eB.rect = true ∧
    (enemyPass pC1 [eA, eB] false).1.health ≠ pC1.health - 2 * 10 := by
  decide

/-- C1, amended: in a collision-resolution pass in which at least one
enemy overlaps the player, the damage rule fires once for the whole
pass — health decreases by exactly 10 regardless of how many enemies
overlap — and the session transitions to GameOver exactly when the
resulting health is zero or below. -/
theorem C1_enemy_damage (p : Player) (es : List Enemy) (go : Bool)
    (h : ∃ e ∈ es, collide p.rect e.rect = true) :
    (enemyPass p es go).1.health = p.health - 10 ∧
    (enemyPass p es go).2 = (if p.health - 10 ≤ 0 then true else go) := by
  have hne : es.filter (fun e => collide p.rect e.rect) ≠ [] := by
    rcases h with ⟨e, he, hcol⟩
    intro hemp
    have hmem : e ∈ es.filter (fun e => collide p.rect e.rect) :=
      List.mem_filter.2 ⟨he, hcol⟩
    rw [hemp] at hmem
    exact absurd hmem (List.not_mem_nil e)
  rcases hl : es.filter (fun e => collide p.rect e.rect) with _ | ⟨e, es'⟩
  · exact absurd hl hne
  · refine ⟨?_, ?_⟩ <;> simp only [enemyPass, hl]

/-- C1, witness: one overlapping enemy at full health. -/
theorem C1_witness :
    (∃ e ∈ [eA], collide pC1.rect e.rect = true) ∧
    (enemyPass pC1 [eA] false).1.health = pC1.health - 10 ∧
    (enemyPass pC1 [eA] false).2 = (if pC1.health - 10 ≤ 0 then true else false) :=
  ⟨⟨eA, by simp, by decide⟩, C1_enemy_damage pC1 [eA] false ⟨eA, by simp, by decide⟩⟩

/-! Claim C2. -/

/-- C2: in every reachable frame state of a session, the player's
health satisfies `0 ≤ health ≤ 100` — powerup healing is capped at 100
and the once-per-pass enemy damage never drives health below 0. -/
theorem C2_health_bounds (s : Game) (h : Reachable s) :
    0 ≤ s.player.health ∧ s.player.health ≤ 100 :=
  ⟨(reachable_inv s h).1.2.1, (reachable_inv s h).1.2.2.1⟩

/-- C2, witness: the bounds at a freshly initialised session. -/
theorem C2_witness :
    0 ≤ (Game.init 5 rng0).1.player.health ∧
      (Game.init 5 rng0).1.player.health ≤ 100 :=
  C2_health_bounds (Game.init 5 rng0).1 (Reachable.init 5 rng0)

/-! Claim C3. -/

/-- C3, counterexample: a player fully on screen who has just jumped
(`velocity_y = -16`) while near the top edge leaves the screen through
the top after one `Player.update` — the source clamps left, right and
bottom but not the top, so the claimed containment in
`[0, WIDTH] × [0, HEIGHT]` fails. -/
theorem C3_counterexample :
    0 ≤ pC3.rect.x ∧ pC3.rect.x + pC3.rect.w ≤ WIDTH ∧
    0 ≤ pC3.rect.y ∧ pC3.rect.y + pC3.rect.h ≤ HEIGHT ∧
    ¬(0 ≤ (Player.update pC3).rect.y) := by
  decide

/-- C3, amended: after `Player.update` the player's rectangle respects
the left, right and bottom screen edges (`0 ≤ left`, `right ≤ WIDTH`,
`bottom ≤ HEIGHT`), but the top edge is not clamped, so the rectangle
can protrude above the screen (`top < 0` is reachable). -/
theorem C3_screen_bounds (p : Player) (hw : p.rect.w = 32) (hh : p.rect.h = 64) :
    0 ≤ (Player.update p).rect.x ∧
    (Player.update p).rect.x + (Player.update p).rect.w ≤ WIDTH ∧
    (Player.update p).rect.y + (Player.update p).rect.h ≤ HEIGHT := by
  simp only [Player.update, WIDTH, HEIGHT]
  split <;> split <;> split <;>
    (refine ⟨?_, ?_, ?_⟩ <;> (dsimp only at *; omega))

/-- C3, witness: the three clamped edges hold for the concrete jumping
player `pC3`. -/
theorem C3_witness :
    0 ≤ (Player.update pC3).rect.x ∧
    (Player.update pC3).rect.x + (Player.update pC3).rect.w ≤ WIDTH ∧
    (Player.update pC3).rect.y + (Player.update pC3).rect.h ≤ HEIGHT :=
  C3_screen_bounds pC3 rfl rfl

/-! Claim C4. -/

/-- C4: when the player is falling (`velocity_y > 0`) and overlaps at
least one platform, one resolver pass selects the overlapping platform
with the greatest bottom edge (the first-encountered one on ties),
snaps the player's bottom to its top, zeroes the vertical velocity,
sets `on_ground` and clears `jumping`; when `velocity_y ≤ 0` the pass
changes nothing. -/
theorem C4_platform_landing (p : Player) (plats : List Platform) :
    (p.velocity_y ≤ 0 → platformPass p plats = p) ∧
    (∀ first rest, 0 < p.velocity_y →
      plats.filter (fun pl => collide p.rect pl.rect) = first :: rest →
      ∃ pre sel post,
        first :: rest = pre ++ sel :: post ∧
        (∀ x ∈ pre, x.rect.bottom < sel.rect.bottom) ∧
        (∀ x ∈ first :: rest, x.rect.bottom ≤ sel.rect.bottom) ∧
        platformPass p plats =
          { p with rect := { p.rect with y := sel.rect.y - p.rect.h },
                   velocity_y := 0, on_ground := true, jumping := false }) := by
  constructor
  · intro hv
    simp only [platformPass]
    split
    · rfl
    · rw [if_neg (by omega)]
  · intro first rest hv hfil
    have hpp : platformPass p plats =
        { p with rect := { p.rect with y := (rest.foldl lowestStep first).rect.y - p.rect.h },
                 velocity_y := 0, on_ground := true, jumping := false } := by
      simp only [platformPass, hfil]
      rw [if_pos hv]
    rcases lowest_spec rest first with ⟨heq, hall⟩ | ⟨l1, l2, hdec, hlt, hl1, hl2⟩
    · refine ⟨[], first, rest, by simp, by simp, ?_, ?_⟩
      · intro x hx
        rcases List.mem_cons.1 hx with rfl | hx
        · exact le_refl _
        · exact hall x hx
      · rw [hpp, heq]
    · refine ⟨first :: l1, rest.foldl lowestStep first, l2, ?_, ?_, ?_, hpp⟩
      · rw [List.cons_append]
        exact congrArg (first :: ·) hdec
      · intro x hx
        rcases List.mem_cons.1 hx with rfl | hx
        · exact hlt
        · exact hl1 x hx
      · intro x hx
        rcases List.mem_cons.1 hx with rfl | hx
        · exact le_of_lt hlt
        · rw [hdec] at hx
          rcases List.mem_append.1 hx with hx | hx
          · exact le_of_lt (hl1 x hx)
          · rcases List.mem_cons.1 hx with rfl | hx
            · exact le_refl _
            · exact hl2 x hx

/-- C4, witness: a falling player above one overlapping platform. -/
theorem C4_witness :
    ∃ pre sel post,
      [platC4] = pre ++ sel :: post ∧
      (∀ x ∈ pre, x.rect.bottom < sel.rect.bottom) ∧
      (∀ x ∈ [platC4], x.rect.bottom ≤ sel.rect.bottom) ∧
      platformPass pC4 [platC4] =
        { pC4 with rect := { pC4.rect with y := sel.rect.y - pC4.rect.h },
                   velocity_y := 0, on_ground := true, jumping := false } :=
  (C4_platform_landing pC4 [platC4]).2 platC4 [] (by decide) (by decide)

/-! Claim C5. -/

/-- C5: collecting a coin of value 10 adds 10 to the score and spawns
exactly one new enemy (appended to the enemy group) precisely when the
integer quotient of the score by 500 strictly increases and the enemy
count is below the maximum of 10; otherwise the enemy group is
unchanged. -/
theorem C5_enemy_spawn (p : Player) (es : List Enemy) (g : RNG) (c : Coin)
    (hv : c.value = 10) :
    (collectCoin (p, es, g) c).1.score = p.score + 10 ∧
    ((p.score + 10).fdiv 500 > p.score.fdiv 500 ∧ es.length < 10 →
      ∃ e, (collectCoin (p, es, g) c).2.1 = es ++ [e]) ∧
    (¬((p.score + 10).fdiv 500 > p.score.fdiv 500) →
      (collectCoin (p, es, g) c).2.1 = es) ∧
    (¬(es.length < 10) → (collectCoin (p, es, g) c).2.1 = es) := by
  dsimp only [collectCoin]
  rw [hv]
  have h1 : p.score + 10 - 10 = p.score := by omega
  rw [h1]
  simp only [ENEMY_SPAWN_SCORE_INTERVAL, MAX_ENEMIES]
  split_ifs with hcond hlen
  · refine ⟨rfl, fun _ => ⟨_, rfl⟩, ?_, ?_⟩
    · intro hn
      exact absurd hcond hn
    · intro hn
      exact absurd hlen hn
  · refine ⟨rfl, ?_, ?_, fun _ => rfl⟩
    · intro hand
      exact absurd hand.2 hlen
    · intro hn
      exact absurd hcond hn
  · refine ⟨rfl, ?_, fun _ => rfl, fun _ => rfl⟩
    · intro hand
      exact absurd hand.1 hcond

/-- C5, witness: a coin pushing the score from 490 to 500 spawns one
enemy into an empty enemy list. -/
theorem C5_witness :
    (p490.score + 10).fdiv 500 > p490.score.fdiv 500 ∧
    ([] : List Enemy).length < 10 ∧
    ∃ e, (collectCoin (p490, [], rng0) cHit).2.1 = [] ++ [e] :=
  ⟨by decide, by decide,
   (C5_enemy_spawn p490 [] rng0 cHit rfl).2.1 ⟨by decide, by decide⟩⟩

/-! Claim C6. -/

/-- C6: in one resolver pass exactly the overlapping coins are removed
(so a collected coin cannot be collected again in a later pass), the
score increases by exactly 10 per collected coin — hence the pass never
decreases the score — and the score is non-negative in every reachable
session state. -/
theorem C6_coin_collection :
    (∀ (p : Player) (coins : List Coin) (es : List Enemy) (g : RNG),
      (∀ c ∈ coins, c.value = 10) →
      (coinPass p coins es g).2.1 = coins.filter (fun c => !(collide p.rect c.rect)) ∧
      (∀ c ∈ coins, collide p.rect c.rect = true → c ∉ (coinPass p coins es g).2.1) ∧
      (coinPass p coins es g).1.score =
        p.score + 10 * ((coins.filter (fun c => collide p.rect c.rect)).length : Int) ∧
      p.score ≤ (coinPass p coins es g).1.score) ∧
    (∀ s : Game, Reachable s → 0 ≤ s.player.score) := by
  constructor
  · intro p coins es g hv
    have hsc : (coinPass p coins es g).1.score =
        p.score + 10 * ((coins.filter (fun c => collide p.rect c.rect)).length : Int) := by
      rw [coinPass_fst, foldl_collectCoin_score,
        sum_values_all_ten _ (fun c hc => hv c (List.mem_of_mem_filter hc))]
    refine ⟨coinPass_coins p coins es g, ?_, hsc, by omega⟩
    intro c hc hcol hmem
    rw [coinPass_coins] at hmem
    rcases List.mem_filter.1 hmem with ⟨_, h2⟩
    simp [hcol] at h2
  · intro s h
    exact (reachable_inv s h).2.1

/-- C6, witness: one overlapping and one distant coin, plus the
non-negative score at a fresh session. -/
theorem C6_witness :
    (coinPass pC1 [cHit, cMiss] [] rng0).2.1 =
      [cHit, cMiss].filter (fun c => !(collide pC1.rect c.rect)) ∧
    (coinPass pC1 [cHit, cMiss] [] rng0).1.score =
      pC1.score +
        10 * (([cHit, cMiss].filter (fun c => collide pC1.rect c.rect)).length : Int) ∧
    0 ≤ (Game.init 5 rng0).1.player.score :=
  ⟨(C6_coin_collection.1 pC1 [cHit, cMiss] [] rng0 (by decide)).1,
   (C6_coin_collection.1 pC1 [cHit, cMiss] [] rng0 (by decide)).2.2.1,
   C6_coin_collection.2 (Game.init 5 rng0).1 (Reachable.init 5 rng0)⟩

/-! Claim C7. -/

/-- C7, counterexample: in a GameOver state, a frame with no events
still resets the player's horizontal velocity to 0 (the held-key
section of `handle_events` runs every frame), so the claim that entity
velocities are unchanged on every GameOver frame is false. -/
theorem C7_counterexample :
    goState.game_over = true ∧ goState.player.velocity_x = 8 ∧
    (Game.frame goState [] false false 0 (fun _ => 0) rng0).1.player.velocity_x ≠
      goState.player.velocity_x := by
  decide

/-- C7, amended: while the session is in GameOver and no restart input
arrives, the simulation update is skipped, so the GameOver flag, the
player's position, health and score, and every entity group are
unchanged by a frame; input handling still runs, however, so the
player's velocity and facing/jump flags may change. -/
theorem C7_gameover_frozen (s : Game) (events : List Event) (lh rh : Bool)
    (now : Int) (offs : Nat → Int) (g : RNG)
    (hgo : s.game_over = true) (hr : Event.keyR ∉ events) :
    (Game.frame s events lh rh now offs g).1.game_over = true ∧
    (Game.frame s events lh rh now offs g).1.player.rect = s.player.rect ∧
    (Game.frame s events lh rh now offs g).1.player.health = s.player.health ∧
    (Game.frame s events lh rh now offs g).1.player.score = s.player.score ∧
    (Game.frame s events lh rh now offs g).1.platforms = s.platforms ∧
    (Game.frame s events lh rh now offs g).1.coins = s.coins ∧
    (Game.frame s events lh rh now offs g).1.enemies = s.enemies ∧
    (Game.frame s events lh rh now offs g).1.powerups = s.powerups := by
  have hfe := handle_events_frozen s events lh rh g hgo hr
  dsimp only [Game.frame]
  rw [if_pos hfe.1]
  exact hfe

/-- C7, witness: a render-only frame (space pressed) on a concrete
GameOver state. -/
theorem C7_witness :
    (Game.frame goState [Event.keySpace] false false 0 (fun _ => 0) rng0).1.game_over
      = true ∧
    (Game.frame goState [Event.keySpace] false false 0 (fun _ => 0) rng0).1.player.rect
      = goState.player.rect ∧
    (Game.frame goState [Event.keySpace] false false 0 (fun _ => 0) rng0).1.player.health
      = goState.player.health ∧
    (Game.frame goState [Event.keySpace] false false 0 (fun _ => 0) rng0).1.player.score
      = goState.player.score ∧
    (Game.frame goState [Event.keySpace] false false 0 (fun _ => 0) rng0).1.platforms
      = goState.platforms ∧
    (Game.frame goState [Event.keySpace] false false 0 (fun _ => 0) rng0).1.coins
      = goState.coins ∧
    (Game.frame goState [Event.keySpace] false false 0 (fun _ => 0) rng0).1.enemies
      = goState.enemies ∧
    (Game.frame goState [Event.keySpace] false false 0 (fun _ => 0) rng0).1.powerups
      = goState.powerups :=
  C7_gameover_frozen goState [Event.keySpace] false false 0 (fun _ => 0) rng0 rfl
    (by decide)

/-! Claim C8. -/

/-- C8: pressing R while in GameOver reconstructs the session with the
same configured platform count (and that many generated platforms),
back in the Playing state with health 100 and score 0. -/
theorem C8_restart (s : Game) (lh rh : Bool) (g : RNG)
    (hgo : s.game_over = true) (hnp : s.num_platforms ≤ MAX_PLATFORMS) :
    (Game.handle_events s [Event.keyR] lh rh g).1.num_platforms = s.num_platforms ∧
    (Game.handle_events s [Event.keyR] lh rh g).1.platforms.length =
      s.num_platforms.toNat ∧
    (Game.handle_events s [Event.keyR] lh rh g).1.game_over = false ∧
    (Game.handle_events s [Event.keyR] lh rh g).1.player.health = 100 ∧
    (Game.handle_events s [Event.keyR] lh rh g).1.player.score = 0 := by
  have hmin : min s.num_platforms MAX_PLATFORMS = s.num_platforms := min_eq_left hnp
  dsimp only [Game.handle_events, List.foldl_cons, List.foldl_nil, processEvent,
    Game.init]
  rw [if_pos hgo]
  cases lh <;> cases rh <;>
    refine ⟨hmin, ?_, rfl, rfl, rfl⟩ <;>
      rw [genPlatforms_length, List.length_range, hmin]

/-- C8, witness: restart on a concrete GameOver session with 5
configured platforms. -/
theorem C8_witness :
    (Game.handle_events goState [Event.keyR] false false rng0).1.num_platforms =
      goState.num_platforms ∧
    (Game.handle_events goState [Event.keyR] false false rng0).1.platforms.length =
      goState.num_platforms.toNat ∧
    (Game.handle_events goState [Event.keyR] false false rng0).1.game_over = false ∧
    (Game.handle_events goState [Event.keyR] false false rng0).1.player.health = 100 ∧
    (Game.handle_events goState [Event.keyR] false false rng0).1.player.score = 0 :=
  C8_restart goState false false rng0 rfl (by decide)

/-! Claim C9. -/

/-- C10: `Player.jump` is a no-op unless the player is on the ground
and not already jumping; when it fires it changes exactly `velocity_y`
(to the fixed jump impulse), `on_ground` and `jumping`, leaving
position, horizontal velocity, health and score unchanged. -/
theorem C10_jump_effect (p : Player) :
    (¬(p.on_ground = true ∧ p.jumping = false) → p.jump = p) ∧
    (p.on_ground = true → p.jumping = false →
      p.jump = { p with velocity_y := JUMP_POWER, on_ground := false,
                        jumping := true }) := by
  constructor
  · intro h
    unfold Player.jump
    have hc : ¬((p.on_ground && !p.jumping) = true) := by
      simp only [Bool.and_eq_true, Bool.not_eq_true']
      exact h
    rw [if_neg hc]
  · intro h1 h2
    unfold Player.jump
    have hc : (p.on_ground && !p.jumping) = true := by
      simp only [Bool.and_eq_true, Bool.not_eq_true']
      exact ⟨h1, h2⟩
    rw [if_pos hc]

/-- C10, witness: jump is a no-op for the mid-air player `pC3` and
fires for the grounded player `pC1`. -/
theorem C10_witness :
    pC3.jump = pC3 ∧
    pC1.jump = { pC1 with velocity_y := JUMP_POWER, on_ground := false,
                          jumping := true } :=
  ⟨(C10_jump_effect pC3).1 (by decide), (C10_jump_effect pC1).2 rfl rfl⟩

end Mario
